import Mathlib

/-!
Shallow embedding of `cc_dynamodb/__init__.py` (configuration loading,
table-name namespacing, index lookup, table creation, and the schema
reconciliation engine `update_table`), together with theorems checking the
natural-language specification against it.

Python strings are modelled as Lean `String`s; Python `None` as `Option.none`;
Python dictionaries keyed by strings as association lists built with
insert-or-overwrite semantics; remote service calls (`boto`) as an explicit
behaviour record returning `Except JSONResponseError`, with every issued
mutation recorded in an operation trace.
-/

set_option autoImplicit false

namespace CcDynamodb

/-- Python runtime value, as far as the configuration code distinguishes
values: strings (from YAML or the environment), integers and booleans.
`Option PyVal` adds Python `None` as `Option.none`. -/
inductive PyVal where
  | str (s : String)
  | int (n : Int)
  | bool (b : Bool)
deriving DecidableEq, Repr

/-- Python truthiness of a `PyVal`: empty string, zero and `False` are falsy. -/
def pyTruthy : PyVal → Bool
  | .str s => !(s == "")
  | .int n => !(n == 0)
  | .bool b => b

/-- Truthiness of a possibly-`None` value (`None` is falsy). -/
def optTruthy : Option PyVal → Bool
  | none => false
  | some v => pyTruthy v

/-- Python `a or b`: `a` when `a` is truthy, otherwise `b`. -/
def pyOr (a b : Option PyVal) : Option PyVal :=
  if optTruthy a then a else b

/-- The keyword arguments `set_config` reads via `kwargs.get(...)`
(absent keyword = `none`). The Python keyword `namespace` is spelled
`nspace` here because `namespace` is a Lean keyword. -/
structure Kwargs where
  nspace : Option PyVal
  aws_access_key_id : Option PyVal
  aws_secret_access_key : Option PyVal
  host : Option PyVal
  port : Option PyVal
  is_secure : Option PyVal
deriving DecidableEq, Repr

/-- The environment variables `set_config` reads via `os.environ.get(...)`:
CC_DYNAMODB_NAMESPACE, CC_DYNAMODB_ACCESS_KEY_ID, CC_DYNAMODB_SECRET_ACCESS_KEY,
CC_DYNAMODB_HOST, CC_DYNAMODB_PORT, CC_DYNAMODB_IS_SECURE (unset = `none`). -/
structure Env where
  nspace : Option String
  access_key_id : Option String
  secret_access_key : Option String
  host : Option String
  port : Option String
  is_secure : Option String
deriving DecidableEq, Repr

/-- The `Bunch` that `set_config` stores in `_cached_config` (the `yaml`
field, which is independent of field resolution, is not repeated here). -/
structure CachedConfig where
  nspace : Option PyVal
  aws_access_key_id : Option PyVal
  aws_secret_access_key : Option PyVal
  host : Option PyVal
  port : Option PyVal
  is_secure : Option PyVal
deriving DecidableEq, Repr

/-- Resolution of one configuration field:
`kwargs.get(name) or os.environ.get(ENV_NAME)`. -/
def resolveField (kw : Option PyVal) (env : Option String) : Option PyVal :=
  pyOr kw (env.map PyVal.str)

/-- The `Bunch({...})` construction inside `set_config`, before validation. -/
def buildCachedConfig (kw : Kwargs) (env : Env) : CachedConfig :=
  { nspace := resolveField kw.nspace env.nspace
    aws_access_key_id := resolveField kw.aws_access_key_id env.access_key_id
    aws_secret_access_key := resolveField kw.aws_secret_access_key env.secret_access_key
    host := resolveField kw.host env.host
    port := resolveField kw.port env.port
    is_secure := resolveField kw.is_secure env.is_secure }

/-- Digits-only decimal reading used by `parseIntString`. -/
def digitsToNat (cs : List Char) : Option Nat :=
  if cs ≠ [] ∧ cs.all Char.isDigit then
    some (cs.foldl (fun acc c => acc * 10 + (c.toNat - 48)) 0)
  else
    none

/-- Python `int(s)` on a string: surrounding spaces are ignored, an optional
sign is followed by a nonempty run of decimal digits; anything else raises
`ValueError`, modelled as `none`. -/
def parseIntString (s : String) : Option Int :=
  let t := ((s.data.dropWhile (· == ' ')).reverse.dropWhile (· == ' ')).reverse
  match t with
  | '-' :: rest => (digitsToNat rest).map (fun n => -(n : Int))
  | '+' :: rest => (digitsToNat rest).map (fun n => (n : Int))
  | _ => (digitsToNat t).map (fun n => (n : Int))

/-- Python `int(v)` on the values a port can hold. -/
def pyInt : PyVal → Option Int
  | .str s => parseIntString s
  | .int n => some n
  | .bool b => some (if b then 1 else 0)

/-- Result of `set_config`: either the stored configuration or a raised
`ConfigurationError` with its message. -/
inductive SetConfigResult where
  | ok (cfg : CachedConfig)
  | configurationError (msg : String)
deriving DecidableEq, Repr

/-- The validation part of `set_config`: the three falsiness checks followed
by the port conversion, mirroring the order of the Python statements. -/
def set_config (kw : Kwargs) (env : Env) : SetConfigResult :=
  let c := buildCachedConfig kw env
  if !(optTruthy c.nspace) then
    .configurationError "Missing namespace kwarg OR environment variable CC_DYNAMODB_NAMESPACE"
  else if !(optTruthy c.aws_access_key_id) then
    .configurationError "Missing aws_access_key_id kwarg OR environment variable CC_DYNAMODB_ACCESS_KEY_ID"
  else if !(optTruthy c.aws_secret_access_key) then
    .configurationError "Missing aws_secret_access_key kwarg OR environment variable CC_DYNAMODB_SECRET_ACCESS_KEY"
  else if optTruthy c.port then
    match c.port with
    | some p =>
      match pyInt p with
      | some n => .ok { c with port := some (.int n) }
      | none => .configurationError "Integer value expected for port OR environment variable CC_DYNAMODB_PORT"
    | none => .ok c
  else .ok c

/-- Whether `set_config` raised `ConfigurationError`. -/
def isConfigurationError : SetConfigResult → Bool
  | .configurationError _ => true
  | .ok _ => false

/-- A supplied-but-unparseable port: the resolved port is truthy yet
Python `int(...)` fails on it. -/
def portMalformed (c : CachedConfig) : Bool :=
  match c.port with
  | some p => pyTruthy p && (pyInt p).isNone
  | none => false

/-- Selector for the six resolved configuration fields, used to state
per-field facts once. -/
inductive ConfigField where
  | nspace
  | accessKeyId
  | secretAccessKey
  | host
  | port
  | isSecure
deriving DecidableEq, Repr

/-- The keyword argument belonging to a field. -/
def kwargsField (kw : Kwargs) : ConfigField → Option PyVal
  | .nspace => kw.nspace
  | .accessKeyId => kw.aws_access_key_id
  | .secretAccessKey => kw.aws_secret_access_key
  | .host => kw.host
  | .port => kw.port
  | .isSecure => kw.is_secure

/-- The environment variable belonging to a field. -/
def envField (env : Env) : ConfigField → Option String
  | .nspace => env.nspace
  | .accessKeyId => env.access_key_id
  | .secretAccessKey => env.secret_access_key
  | .host => env.host
  | .port => env.port
  | .isSecure => env.is_secure

/-- The stored configuration entry belonging to a field. -/
def cachedField (c : CachedConfig) : ConfigField → Option PyVal
  | .nspace => c.nspace
  | .accessKeyId => c.aws_access_key_id
  | .secretAccessKey => c.aws_secret_access_key
  | .host => c.host
  | .port => c.port
  | .isSecure => c.is_secure

/-- The part of the loaded configuration that table-name namespacing reads. -/
structure LoadedNamespace where
  nspace : String
deriving DecidableEq, Repr

/-- Source `get_table_name`: prefixes the configured namespace. -/
def get_table_name (cfg : LoadedNamespace) (table_name : String) : String :=
  cfg.nspace ++ table_name

/-- Source `get_reverse_table_name`: drops `len(namespace)` characters. -/
def get_reverse_table_name (cfg : LoadedNamespace) (table_name : String) : String :=
  table_name.drop cfg.nspace.length

/-- One raw index declaration from the YAML configuration, as far as
`get_table_index` inspects it: its `name` entry (`typeName` stands for the
rest of the declaration). -/
structure IndexDecl where
  name : String
  typeName : String
deriving DecidableEq, Repr

/-- The two index sections of the YAML configuration, as association lists
from table name to declared indexes (`.items()` order). -/
structure YamlIndexes where
  indexes : List (String × List IndexDecl)
  global_indexes : List (String × List IndexDecl)
deriving DecidableEq, Repr

/-- Inner loop of `get_table_index`: first declaration whose `name` matches. -/
def findIndexByName (idxs : List IndexDecl) (index_name : String) : Option IndexDecl :=
  match idxs with
  | [] => none
  | i :: rest => if i.name == index_name then some i else findIndexByName rest index_name

/-- Outer loop of `get_table_index` over
`indexes.items() + global_indexes.items()`: scan entries for the table name,
return the first matching index; fall through (to `None`) otherwise. -/
def searchTables (tables : List (String × List IndexDecl))
    (table_name index_name : String) : Option IndexDecl :=
  match tables with
  | [] => none
  | (t, idxs) :: rest =>
    if t == table_name then
      match findIndexByName idxs index_name with
      | some i => some i
      | none => searchTables rest table_name index_name
    else searchTables rest table_name index_name

/-- Source `get_table_index`. -/
def get_table_index (cfg : YamlIndexes) (table_name index_name : String) : Option IndexDecl :=
  searchTables (cfg.indexes ++ cfg.global_indexes) table_name index_name

/-- Read/write provisioned capacity, a throughput dictionary
`{'read': ..., 'write': ...}`. -/
structure Throughput where
  read : Nat
  write : Nat
deriving DecidableEq, Repr

/-- One built local key (`HashKey`/`RangeKey` from `_build_key`): its
attribute name, its key role as reported by `.schema()` (HASH or RANGE),
and its data type as reported by `.definition()` (S, N or B). -/
structure LocalKey where
  name : String
  keyType : String
  dataType : String
deriving DecidableEq, Repr

/-- One entry of a `KeySchema` list: `{'AttributeName': ..., 'KeyType': ...}`. -/
structure KeySchemaEntry where
  attributeName : String
  keyType : String
deriving DecidableEq, Repr

/-- One entry of an `AttributeDefinitions` list:
`{'AttributeName': ..., 'AttributeType': ...}`. -/
structure AttributeDefinition where
  attributeName : String
  attributeType : String
deriving DecidableEq, Repr

/-- boto `key.schema()` for a built key. -/
def LocalKey.schemaEntry (k : LocalKey) : KeySchemaEntry :=
  { attributeName := k.name, keyType := k.keyType }

/-- boto `key.definition()` for a built key. -/
def LocalKey.definitionEntry (k : LocalKey) : AttributeDefinition :=
  { attributeName := k.name, attributeType := k.dataType }

/-- One locally declared global secondary index (a built `GlobalAllIndex`-like
object): name, key parts, and its own throughput. -/
structure GlobalIndex where
  name : String
  parts : List LocalKey
  throughput : Throughput
deriving DecidableEq, Repr

/-- One upstream global secondary index description, as far as `update_table`
inspects it: its `IndexName`. -/
structure UpstreamIndex where
  indexName : String
deriving DecidableEq, Repr

/-- The `table_metadata['Table']` part that `update_table` and
`_validate_schema` read from `describe()`. -/
structure TableDescription where
  keySchema : List KeySchemaEntry
  attributeDefinitions : List AttributeDefinition
  globalSecondaryIndexes : List UpstreamIndex
deriving DecidableEq, Repr

/-- A raised `boto.exception.JSONResponseError`: HTTP status, machine-readable
error code, and raw body. -/
structure JSONResponseError where
  status : Nat
  error_code : String
  body : String
deriving DecidableEq, Repr

/-- Python `dict` insertion: overwrite the value at an existing key in place,
append a fresh key at the end. -/
def dictInsert {α : Type} (d : List (String × α)) (k : String) (v : α) :
    List (String × α) :=
  if d.any (fun p => p.1 == k) then
    d.map (fun p => if p.1 == k then (k, v) else p)
  else
    d ++ [(k, v)]

/-- Python `dict(pairs)`: left-to-right insertion with overwrite. -/
def pyDict {α : Type} (l : List (String × α)) : List (String × α) :=
  l.foldl (fun d p => dictInsert d p.1 p.2) []

/-- Stable insertion of `x` into a sorted list: `x` goes before the first
element whose key is not smaller, so earlier elements keep their position
among equal keys. -/
def insertByKey {α : Type} (keyOf : α → String) (x : α) : List α → List α
  | [] => [x]
  | y :: ys => if keyOf y < keyOf x then y :: insertByKey keyOf x ys else x :: y :: ys

/-- Python `sorted(l, key=lambda i: i['AttributeName'])`: a stable sort
comparing keys only, modelled as stable insertion sort (stable sorts under
the same key agree, so this matches Timsort's output). -/
def sortByKey {α : Type} (keyOf : α → String) : List α → List α
  | [] => []
  | x :: xs => insertByKey keyOf x (sortByKey keyOf xs)

/-- Name-sorting of key-schema entries, as `_validate_schema` does it. -/
def sortSchemaByName (l : List KeySchemaEntry) : List KeySchemaEntry :=
  sortByKey (fun i => i.attributeName) l

/-- Name-sorting of attribute definitions, as `_validate_schema` does it. -/
def sortAttrsByName (l : List AttributeDefinition) : List AttributeDefinition :=
  sortByKey (fun i => i.attributeName) l

/-- The `upstream_attributes` list of `_validate_schema`: upstream attribute
definitions restricted to attributes named in the upstream key schema. -/
def upstreamKeyAttributes (desc : TableDescription) : List AttributeDefinition :=
  desc.attributeDefinitions.filter
    (fun item => (desc.keySchema.map (fun i => i.attributeName)).contains item.attributeName)

/-- The `local_schema` list of `_validate_schema`: `.schema()` of each built
primary-key item. -/
def localKeySchema (schema : List LocalKey) : List KeySchemaEntry :=
  schema.map LocalKey.schemaEntry

/-- The `local_attributes` list of `_validate_schema`: `.definition()` of the
built items whose attribute name occurs in the local key schema (the filter is
written out as in the source, though it never rejects anything). -/
def localKeyAttributes (schema : List LocalKey) : List AttributeDefinition :=
  (schema.filter
    (fun item => ((localKeySchema schema).map (fun i => i.attributeName)).contains
      item.definitionEntry.attributeName)).map LocalKey.definitionEntry

/-- Source `_validate_schema`: compare the name-sorted key schemas, then the
name-sorted key attribute definitions; raise `UpdateTableException` (as an
`Except.error` message) on the first difference. -/
def _validate_schema (schema : List LocalKey) (desc : TableDescription) :
    Except String Unit :=
  if sortSchemaByName desc.keySchema ≠ sortSchemaByName (localKeySchema schema) then
    .error "Mismatched schema"
  else if sortAttrsByName (upstreamKeyAttributes desc) ≠ sortAttrsByName (localKeyAttributes schema) then
    .error "Mismatched attributes"
  else
    .ok ()

/-- Source `_get_or_default_throughput`: the explicit throughput argument when
one is given (`none` models the `False` default), else the configured
`default_throughput`. -/
def _get_or_default_throughput (throughput : Option Throughput)
    (default_throughput : Throughput) : Throughput :=
  match throughput with
  | none => default_throughput
  | some t => t

/-- One service-level mutation issued by the engine. `updateThroughput`
carries the raw `throughput` value passed to `db_table.update` (`none` models
Python `False`). -/
inductive Op where
  | updateThroughput (tp : Option Throughput)
  | createIndex (index : GlobalIndex)
  | updateIndexThroughput (name : String) (tp : Throughput)
  | deleteIndex (name : String)
deriving DecidableEq, Repr

/-- Behaviour of the remote service during one `update_table` run: the
outcome of `describe` and of each possible mutation call. -/
structure ServiceBehavior where
  describe : Except JSONResponseError TableDescription
  update : Option Throughput → Except JSONResponseError Unit
  create_global_secondary_index : GlobalIndex → Except JSONResponseError Unit
  update_global_secondary_index : String → Throughput → Except JSONResponseError Unit
  delete_global_secondary_index : String → Except JSONResponseError Unit

/-- Overall outcome of `update_table`: a normal return of the table handle,
a raised `UnknownTableException`, or a raised `UpdateTableException`. -/
inductive UpdateResult where
  | ok
  | unknownTable
  | schemaMismatch (msg : String)
deriving DecidableEq, Repr

/-- The `except JSONResponseError` clause of `update_table`: a 400 with
`ResourceNotFoundException` becomes `UnknownTableException`; any other
`JSONResponseError` matches the clause, is not re-raised, and the function
falls through to `return db_table`. -/
def handleJSONResponseError (ops : List Op) (e : JSONResponseError) :
    List Op × UpdateResult :=
  if e.status == 400 && e.error_code == "ResourceNotFoundException" then
    (ops, .unknownTable)
  else
    (ops, .ok)

/-- The first `for` loop of `update_table` over
`local_global_indexes_by_name.items()`: create the index when its name is not
upstream, otherwise update its throughput; stop at the first
`JSONResponseError`. Returns the issued operations and the raised error,
if any. -/
def runLocalIndexLoop (svc : ServiceBehavior) (upstreamNames : List String) :
    List (String × GlobalIndex) → List Op × Option JSONResponseError
  | [] => ([], none)
  | (index_name, index) :: rest =>
    if !(upstreamNames.contains index_name) then
      match svc.create_global_secondary_index index with
      | .error e => ([.createIndex index], some e)
      | .ok _ =>
        let r := runLocalIndexLoop svc upstreamNames rest
        (.createIndex index :: r.1, r.2)
    else
      match svc.update_global_secondary_index index_name index.throughput with
      | .error e => ([.updateIndexThroughput index_name index.throughput], some e)
      | .ok _ =>
        let r := runLocalIndexLoop svc upstreamNames rest
        (.updateIndexThroughput index_name index.throughput :: r.1, r.2)

/-- The second `for` loop of `update_table` over
`upstream_global_indexes_by_name.keys()`: delete each upstream index whose
name is no longer declared locally; stop at the first `JSONResponseError`. -/
def runDeleteIndexLoop (svc : ServiceBehavior) (localNames : List String) :
    List String → List Op × Option JSONResponseError
  | [] => ([], none)
  | index_name :: rest =>
    if !(localNames.contains index_name) then
      match svc.delete_global_secondary_index index_name with
      | .error e => ([.deleteIndex index_name], some e)
      | .ok _ =>
        let r := runDeleteIndexLoop svc localNames rest
        (.deleteIndex index_name :: r.1, r.2)
    else runDeleteIndexLoop svc localNames rest

/-- Source `update_table`, as the trace of issued service mutations plus its
outcome. `schema` and `localIndexes` are the built local schema and global
indexes carried by the `Table` constructed from `_get_table_init_data`;
`throughput` is the raw argument (`none` for the `False` default). -/
def update_table (svc : ServiceBehavior) (schema : List LocalKey)
    (localIndexes : List GlobalIndex) (throughput : Option Throughput) :
    List Op × UpdateResult :=
  let local_by_name := pyDict (localIndexes.map (fun i => (i.name, i)))
  match svc.describe with
  | .error e => handleJSONResponseError [] e
  | .ok desc =>
    match _validate_schema schema desc with
    | .error msg => ([], .schemaMismatch msg)
    | .ok _ =>
      match svc.update throughput with
      | .error e => handleJSONResponseError [.updateThroughput throughput] e
      | .ok _ =>
        let upstream_by_name :=
          pyDict (desc.globalSecondaryIndexes.map (fun i => (i.indexName, i)))
        let upstreamNames := upstream_by_name.map (fun p => p.1)
        let r1 := runLocalIndexLoop svc upstreamNames local_by_name
        let base := Op.updateThroughput throughput :: r1.1
        match r1.2 with
        | some e => handleJSONResponseError base e
        | none =>
          let localNames := local_by_name.map (fun p => p.1)
          let r2 := runDeleteIndexLoop svc localNames upstreamNames
          match r2.2 with
          | some e => handleJSONResponseError (base ++ r2.1) e
          | none => (base ++ r2.1, .ok)

/-- Outcome of `create_table`: normal return, `TableAlreadyExistsException`
carrying the raw service body, or the re-raised service error. -/
inductive CreateResult where
  | ok
  | tableAlreadyExists (body : String)
  | serviceError (e : JSONResponseError)
deriving DecidableEq, Repr

/-- Source `create_table` error handling around `Table.create`: translate a
400 `ResourceInUseException` into `TableAlreadyExistsException(body=e.body)`,
re-raise (`raise e`) anything else. -/
def create_table (createCall : Except JSONResponseError Unit) : CreateResult :=
  match createCall with
  | .ok _ => .ok
  | .error e =>
    if e.status == 400 && e.error_code == "ResourceInUseException" then
      .tableAlreadyExists e.body
    else
      .serviceError e

/-- A Python object on the heap, as far as configuration copying is
concerned: an immutable scalar, or a dict mapping string keys to references
(heap addresses). -/
inductive PyObj where
  | prim (s : String)
  | dictO (entries : List (String × Nat))
deriving DecidableEq, Repr

/-- Heap of Python objects: the address of an object is its index, and
allocation appends at the end. -/
abbrev Heap := List PyObj

/-- The references held directly by one object. -/
def objRefs : PyObj → List Nat
  | .prim _ => []
  | .dictO es => es.map (fun p => p.2)

/-- Well-formed heap: every reference stored in it is a valid address. -/
def WFHeap (h : Heap) : Prop :=
  ∀ obj ∈ h, ∀ r ∈ objRefs obj, r < h.length

/-- Pure value tree of a Python object graph (the `toDict()` view). -/
inductive Tree where
  | prim (s : String)
  | dictT (entries : List (String × Tree))
deriving Repr

/-- Read the trees of a list of dict entries through a reader `f`. -/
def readEntries (f : Nat → Option Tree) : List (String × Nat) → Option (List (String × Tree))
  | [] => some []
  | (k, r) :: rest =>
    match f r, readEntries f rest with
    | some t, some ts => some ((k, t) :: ts)
    | _, _ => none

/-- Read the value tree rooted at an address, with recursion fuel (`none` on
exhausted fuel, a dangling reference, or too deep a structure). -/
def readTree : Nat → Heap → Nat → Option Tree
  | 0, _, _ => none
  | fuel + 1, h, a =>
    match h[a]? with
    | none => none
    | some (.prim s) => some (.prim s)
    | some (.dictO entries) => (readEntries (readTree fuel h) entries).map Tree.dictT

mutual

/-- Allocate a fresh copy of a value tree on the heap (the writing half of
`copy.deepcopy`): returns the extended heap and the address of the copy. -/
def writeTree (h : Heap) : Tree → Heap × Nat
  | .prim s => (h ++ [.prim s], h.length)
  | .dictT entries =>
    let r := writeEntries h entries
    (r.1 ++ [.dictO r.2], r.1.length)

/-- Allocate fresh copies of a list of dict entries on the heap. -/
def writeEntries (h : Heap) : List (String × Tree) → Heap × List (String × Nat)
  | [] => (h, [])
  | (k, t) :: rest =>
    let w := writeTree h t
    let q := writeEntries w.1 rest
    (q.1, (k, w.2) :: q.2)

end

/-- Source `get_config` body `Bunch(copy.deepcopy(_cached_config.toDict()))`:
read the cached configuration's value tree at `root` and write a fresh deep
copy, returning the new heap and the copy's root address. -/
def get_config_model (h : Heap) (root fuel : Nat) : Option (Heap × Nat) :=
  (readTree fuel h root).map (fun t => writeTree h t)

/-- The index name an operation is scoped to (`none` for the primary-table
throughput update). -/
def opIndexName : Op → Option String
  | .updateThroughput _ => none
  | .createIndex i => some i.name
  | .updateIndexThroughput n _ => some n
  | .deleteIndex n => some n

/-- Concrete upstream description used by witnesses: hash key `id` of type S,
no global secondary indexes. -/
def descFixture : TableDescription :=
  { keySchema := [{ attributeName := "id", keyType := "HASH" }]
    attributeDefinitions := [{ attributeName := "id", attributeType := "S" }]
    globalSecondaryIndexes := [] }

/-- Concrete upstream description whose key attribute data type (N) differs
from the local declaration (S). -/
def descFixtureMismatch : TableDescription :=
  { keySchema := [{ attributeName := "id", keyType := "HASH" }]
    attributeDefinitions := [{ attributeName := "id", attributeType := "N" }]
    globalSecondaryIndexes := [] }

/-- Concrete upstream description with global secondary indexes B and C. -/
def descGsiFixture : TableDescription :=
  { keySchema := [{ attributeName := "id", keyType := "HASH" }]
    attributeDefinitions := [{ attributeName := "id", attributeType := "S" }]
    globalSecondaryIndexes := [{ indexName := "B" }, { indexName := "C" }] }

/-- Concrete local primary-key schema used by witnesses: hash key `id` : S. -/
def schemaFixture : List LocalKey :=
  [{ name := "id", keyType := "HASH", dataType := "S" }]

/-- Concrete local global secondary index A. -/
def gsiA : GlobalIndex :=
  { name := "A", parts := [{ name := "a", keyType := "HASH", dataType := "S" }]
    throughput := { read := 1, write := 2 } }

/-- Concrete local global secondary index B. -/
def gsiB : GlobalIndex :=
  { name := "B", parts := [{ name := "b", keyType := "HASH", dataType := "S" }]
    throughput := { read := 3, write := 4 } }

/-- Service behaviour where `describe` returns `desc` and every mutation
succeeds. -/
def svcAllOk (desc : TableDescription) : ServiceBehavior :=
  { describe := .ok desc
    update := fun _ => .ok ()
    create_global_secondary_index := fun _ => .ok ()
    update_global_secondary_index := fun _ _ => .ok ()
    delete_global_secondary_index := fun _ => .ok () }

/-- Service behaviour where the primary-table throughput update raises `e`. -/
def svcUpdateFails (desc : TableDescription) (e : JSONResponseError) : ServiceBehavior :=
  { svcAllOk desc with update := fun _ => .error e }

/-! Theorems. -/

theorem findIndexByName_eq_none (idxs : List IndexDecl) (index_name : String)
    (h : ∀ i ∈ idxs, i.name ≠ index_name) :
    findIndexByName idxs index_name = none := by
  induction idxs with
  | nil => rfl
  | cons i rest ih =>
    have hi : (i.name == index_name) = false := by
      simpa using h i (List.mem_cons_self _ _)
    simp only [findIndexByName, hi, Bool.false_eq_true, if_false]
    exact ih (fun j hj => h j (List.mem_cons_of_mem _ hj))

theorem searchTables_eq_none (tables : List (String × List IndexDecl))
    (table_name index_name : String)
    (h : ∀ p ∈ tables, p.1 = table_name → ∀ i ∈ p.2, i.name ≠ index_name) :
    searchTables tables table_name index_name = none := by
  induction tables with
  | nil => rfl
  | cons p rest ih =>
    have ihrest : searchTables rest table_name index_name = none :=
      ih (fun q hq => h q (List.mem_cons_of_mem _ hq))
    by_cases hp : p.1 = table_name
    · have hfind : findIndexByName p.2 index_name = none :=
        findIndexByName_eq_none _ _ (h p (List.mem_cons_self _ _) hp)
      cases p with
      | mk t idxs =>
        simp only [searchTables]
        simp only at hp hfind
        simp [hp, hfind, ihrest]
    · cases p with
      | mk t idxs =>
        simp only [searchTables]
        simp only at hp
        simp [hp, ihrest]

/-- Claim C9: when the loaded configuration declares no index named
`index_name` for `table_name` in either the `indexes` or the
`global_indexes` section, `get_table_index` falls off both loops and returns
`None` rather than raising. -/
theorem get_table_index_none_of_undeclared (cfg : YamlIndexes)
    (table_name index_name : String)
    (h : ∀ p ∈ cfg.indexes ++ cfg.global_indexes, p.1 = table_name →
      ∀ i ∈ p.2, i.name ≠ index_name) :
    get_table_index cfg table_name index_name = none :=
  searchTables_eq_none _ _ _ h

/-- Witness for C9 on a concrete configuration declaring an index of a
different name for the table. -/
theorem get_table_index_none_of_undeclared_witness :
    get_table_index
      { indexes := [("users", [{ name := "by_email", typeName := "AllIndex" }])]
        global_indexes := [("users", [{ name := "by_phone", typeName := "GlobalAllIndex" }])] }
      "users" "by_name" = none :=
  get_table_index_none_of_undeclared _ "users" "by_name" (by decide)

/-- Claim C10: in `set_config`, a falsy explicit keyword argument (empty
string, zero, `False`) is treated like an absent one: the stored value of the
field comes from its environment variable. -/
theorem set_config_falsy_override_uses_env (kw : Kwargs) (env : Env)
    (f : ConfigField) (v : PyVal)
    (hkw : kwargsField kw f = some v) (hfalsy : pyTruthy v = false) :
    cachedField (buildCachedConfig kw env) f = (envField env f).map PyVal.str := by
  cases f <;>
    simp_all [kwargsField, cachedField, envField, buildCachedConfig, resolveField,
      pyOr, optTruthy]

/-- Witness for C10: an empty-string namespace keyword falls back to the
CC_DYNAMODB_NAMESPACE environment value. -/
theorem set_config_falsy_override_uses_env_witness :
    cachedField
      (buildCachedConfig
        { nspace := some (PyVal.str ""), aws_access_key_id := none
          aws_secret_access_key := none, host := none, port := none, is_secure := none }
        { nspace := some "dev_", access_key_id := none, secret_access_key := none
          host := none, port := none, is_secure := none })
      ConfigField.nspace = some (PyVal.str "dev_") :=
  set_config_falsy_override_uses_env _ _ ConfigField.nspace (PyVal.str "") rfl rfl

/-- Claim C7: namespacing then un-namespacing a table name is the identity.
The source drops exactly `len(namespace)` characters from the front of
`namespace + name`, so this holds for every name, in particular for the
names the claim restricts to (those not containing the namespace as a
substring elsewhere). -/
theorem get_reverse_table_name_get_table_name (cfg : LoadedNamespace)
    (name : String) :
    get_reverse_table_name cfg (get_table_name cfg name) = name := by
  apply String.ext
  show ((cfg.nspace ++ name).drop cfg.nspace.length).data = name.data
  rw [String.drop_eq]
  show ((cfg.nspace ++ name).data.drop cfg.nspace.length) = name.data
  rw [String.data_append]
  exact List.drop_left' rfl

/-- Claim C5: `create_table` translates a 400 `ResourceInUseException` from
the create call into `TableAlreadyExistsException` carrying the raw body,
and re-raises every other service error unchanged. -/
theorem create_table_error_handling (e : JSONResponseError) :
    (e.status = 400 ∧ e.error_code = "ResourceInUseException" →
      create_table (.error e) = .tableAlreadyExists e.body) ∧
    (¬(e.status = 400 ∧ e.error_code = "ResourceInUseException") →
      create_table (.error e) = .serviceError e) := by
  constructor
  · intro h
    simp [create_table, h.1, h.2]
  · intro h
    have : ¬((e.status == 400) = true ∧ (e.error_code == "ResourceInUseException") = true) := by
      simpa using h
    simp only [create_table]
    rw [if_neg]
    simpa [Bool.and_eq_true] using this

/-- Witness for C5: a concrete already-exists error is translated. -/
theorem create_table_error_handling_witness :
    create_table (.error { status := 400, error_code := "ResourceInUseException", body := "raw" })
      = CreateResult.tableAlreadyExists "raw" :=
  (create_table_error_handling
    { status := 400, error_code := "ResourceInUseException", body := "raw" }).1
    ⟨rfl, rfl⟩

/-- Claim C6: `set_config` raises `ConfigurationError` exactly when one of
namespace, access key id or secret access key resolves to no (truthy) value
from the keyword argument or its environment variable, or when the resolved
port is truthy yet not parseable as an integer. The whole check is a pure
function of the keyword arguments and the environment: no network call is
involved. -/
theorem optTruthy_some (v : PyVal) : optTruthy (some v) = pyTruthy v := rfl

theorem optTruthy_none : optTruthy none = false := rfl

theorem set_config_error_iff (kw : Kwargs) (env : Env) :
    isConfigurationError (set_config kw env) = true ↔
      (optTruthy (buildCachedConfig kw env).nspace = false ∨
       optTruthy (buildCachedConfig kw env).aws_access_key_id = false ∨
       optTruthy (buildCachedConfig kw env).aws_secret_access_key = false ∨
       portMalformed (buildCachedConfig kw env) = true) := by
  cases h1 : optTruthy (buildCachedConfig kw env).nspace with
  | false => simp [set_config, isConfigurationError, h1]
  | true =>
    cases h2 : optTruthy (buildCachedConfig kw env).aws_access_key_id with
    | false => simp [set_config, isConfigurationError, h1, h2]
    | true =>
      cases h3 : optTruthy (buildCachedConfig kw env).aws_secret_access_key with
      | false => simp [set_config, isConfigurationError, h1, h2, h3]
      | true =>
        cases hp : (buildCachedConfig kw env).port with
        | none =>
          simp [set_config, isConfigurationError, portMalformed, h1, h2, h3, hp,
            optTruthy_none]
        | some p =>
          cases htp : pyTruthy p with
          | false =>
            simp [set_config, isConfigurationError, portMalformed, h1, h2, h3, hp,
              optTruthy_some, htp]
          | true =>
            cases hpi : pyInt p with
            | none =>
              simp [set_config, isConfigurationError, portMalformed, h1, h2, h3, hp,
                optTruthy_some, htp, hpi]
            | some n =>
              simp [set_config, isConfigurationError, portMalformed, h1, h2, h3, hp,
                optTruthy_some, htp, hpi]

/-- Claim C1 (code behaviour at the failing input): a `JSONResponseError`
with status 500 raised by the primary-table throughput update is caught by
`update_table`'s blanket `except JSONResponseError` clause; since only the
400/ResourceNotFoundException case re-raises anything, the function falls
through and returns the table handle normally (`UpdateResult.ok`) instead of
propagating the error. -/
theorem update_table_swallows_service_error :
    update_table
      (svcUpdateFails descFixture
        { status := 500, error_code := "InternalServerError", body := "boom" })
      schemaFixture [] none
      = ([Op.updateThroughput none], UpdateResult.ok) := by
  rfl

/-- Claim C4 (code behaviour at the failing input): with no explicit
throughput argument, the primary-table update call records the raw argument
`none` (Python `False`), which differs from the resolved default throughput
`_get_or_default_throughput` would supply. -/
theorem update_table_uses_raw_throughput :
    update_table (svcAllOk descFixture) schemaFixture [] none
        = ([Op.updateThroughput none], UpdateResult.ok) ∧
      _get_or_default_throughput none { read := 5, write := 5 } = { read := 5, write := 5 } ∧
      Op.updateThroughput none ≠ Op.updateThroughput (some { read := 5, write := 5 }) := by
  refine ⟨by rfl, rfl, by decide⟩

/-- Claim C2: when `describe` succeeds but either name-sorted primary-key
projection (key schema shape, or key attribute definitions) differs between
the local declaration and the upstream description, `update_table` raises the
schema-mismatch error with an empty mutation trace: no throughput update and
no index operation was issued. -/
theorem update_table_schema_mismatch_aborts (svc : ServiceBehavior)
    (schema : List LocalKey) (localIndexes : List GlobalIndex)
    (throughput : Option Throughput) (desc : TableDescription)
    (hdesc : svc.describe = .ok desc)
    (hmm : sortSchemaByName desc.keySchema ≠ sortSchemaByName (localKeySchema schema) ∨
      sortAttrsByName (upstreamKeyAttributes desc) ≠ sortAttrsByName (localKeyAttributes schema)) :
    ∃ msg, update_table svc schema localIndexes throughput = ([], .schemaMismatch msg) := by
  by_cases h1 : sortSchemaByName desc.keySchema = sortSchemaByName (localKeySchema schema)
  · have h2 : sortAttrsByName (upstreamKeyAttributes desc) ≠ sortAttrsByName (localKeyAttributes schema) := by
      tauto
    exact ⟨"Mismatched attributes", by simp [update_table, hdesc, _validate_schema, h1, h2]⟩
  · exact ⟨"Mismatched schema", by simp [update_table, hdesc, _validate_schema, h1]⟩

/-- Witness for C2: local hash key `id : S` against upstream `id : N` aborts
with the mismatch error and an empty trace. -/
theorem update_table_schema_mismatch_aborts_witness :
    ∃ msg, update_table (svcAllOk descFixtureMismatch) schemaFixture [gsiA] none
      = ([], .schemaMismatch msg) :=
  update_table_schema_mismatch_aborts (svcAllOk descFixtureMismatch) schemaFixture
    [gsiA] none descFixtureMismatch rfl (Or.inr (by decide))

theorem dictInsert_of_not_mem {α : Type} (d : List (String × α)) (k : String) (v : α)
    (h : ∀ p ∈ d, p.1 ≠ k) : dictInsert d k v = d ++ [(k, v)] := by
  have hany : d.any (fun p => p.1 == k) = false := by
    simp only [List.any_eq_false]
    intro p hp
    simpa using h p hp
  simp [dictInsert, hany]

theorem pyDict_foldl_eq {α : Type} (l acc : List (String × α))
    (hnd : ((acc ++ l).map Prod.fst).Nodup) :
    l.foldl (fun d p => dictInsert d p.1 p.2) acc = acc ++ l := by
  induction l generalizing acc with
  | nil => simp
  | cons p rest ih =>
    have hnd' := hnd
    rw [List.map_append, List.nodup_append] at hnd'
    have hnotin : ∀ q ∈ acc, q.1 ≠ p.1 := by
      intro q hq he
      exact hnd'.2.2 (List.mem_map_of_mem _ hq)
        (he ▸ List.mem_map_of_mem Prod.fst (List.mem_cons_self p rest))
    rw [List.foldl_cons, dictInsert_of_not_mem acc p.1 p.2 hnotin]
    have hre : acc ++ [(p.1, p.2)] = acc ++ [p] := by simp
    rw [hre, ih (acc ++ [p]) (by simpa using hnd)]
    simp

theorem pyDict_eq_self {α : Type} (l : List (String × α))
    (hnd : (l.map Prod.fst).Nodup) : pyDict l = l := by
  simpa [pyDict] using pyDict_foldl_eq l [] (by simpa using hnd)

theorem runLocalIndexLoop_all_ok (svc : ServiceBehavior) (upstreamNames : List String)
    (entries : List (String × GlobalIndex))
    (hcr : ∀ i, svc.create_global_secondary_index i = .ok ())
    (hug : ∀ n t, svc.update_global_secondary_index n t = .ok ()) :
    runLocalIndexLoop svc upstreamNames entries =
      (entries.map (fun p =>
        if upstreamNames.contains p.1 then Op.updateIndexThroughput p.1 p.2.throughput
        else Op.createIndex p.2), none) := by
  induction entries with
  | nil => rfl
  | cons p rest ih =>
    cases p with
    | mk n idx =>
      by_cases hmem : n ∈ upstreamNames
      · simp [runLocalIndexLoop, hmem, hug, ih]
      · simp [runLocalIndexLoop, hmem, hcr, ih]

theorem runDeleteIndexLoop_all_ok (svc : ServiceBehavior) (localNames : List String)
    (names : List String)
    (hdel : ∀ n, svc.delete_global_secondary_index n = .ok ()) :
    runDeleteIndexLoop svc localNames names =
      ((names.filter (fun n => !(localNames.contains n))).map Op.deleteIndex, none) := by
  induction names with
  | nil => rfl
  | cons n rest ih =>
    by_cases hmem : n ∈ localNames
    · simp [runDeleteIndexLoop, hmem, ih]
    · simp [runDeleteIndexLoop, hmem, hdel, ih]

theorem update_table_trace_all_ok (svc : ServiceBehavior) (schema : List LocalKey)
    (localIndexes : List GlobalIndex) (throughput : Option Throughput)
    (desc : TableDescription)
    (hdesc : svc.describe = .ok desc)
    (hvalid : _validate_schema schema desc = .ok ())
    (hup : svc.update throughput = .ok ())
    (hcr : ∀ i, svc.create_global_secondary_index i = .ok ())
    (hug : ∀ n t, svc.update_global_secondary_index n t = .ok ())
    (hdel : ∀ n, svc.delete_global_secondary_index n = .ok ())
    (hln : (localIndexes.map GlobalIndex.name).Nodup)
    (hun : (desc.globalSecondaryIndexes.map UpstreamIndex.indexName).Nodup) :
    update_table svc schema localIndexes throughput =
      (Op.updateThroughput throughput ::
        (localIndexes.map (fun i =>
          if (desc.globalSecondaryIndexes.map UpstreamIndex.indexName).contains i.name
          then Op.updateIndexThroughput i.name i.throughput
          else Op.createIndex i) ++
        ((desc.globalSecondaryIndexes.map UpstreamIndex.indexName).filter
          (fun n => !((localIndexes.map GlobalIndex.name).contains n))).map Op.deleteIndex),
       UpdateResult.ok) := by
  have hpl : pyDict (localIndexes.map (fun i => (i.name, i))) =
      localIndexes.map (fun i => (i.name, i)) := by
    apply pyDict_eq_self
    simpa [List.map_map, Function.comp_def] using hln
  have hpu : pyDict (desc.globalSecondaryIndexes.map (fun i => (i.indexName, i))) =
      desc.globalSecondaryIndexes.map (fun i => (i.indexName, i)) := by
    apply pyDict_eq_self
    simpa [List.map_map, Function.comp_def] using hun
  simp only [update_table, hdesc, hvalid, hup, hpl, hpu]
  rw [runLocalIndexLoop_all_ok _ _ _ hcr hug, runDeleteIndexLoop_all_ok _ _ _ hdel]
  simp [List.map_map, Function.comp_def]

theorem count_eq_zero_of_forall_ne {α : Type} [DecidableEq α] (l : List α) (x : α)
    (h : ∀ y ∈ l, y ≠ x) : l.count x = 0 :=
  List.count_eq_zero.mpr (fun hx => (h x hx) rfl)

theorem count_map_self_of_nodup (l : List GlobalIndex) (g : GlobalIndex → Op)
    (hg : ∀ j, opIndexName (g j) = some j.name)
    (hnd : (l.map GlobalIndex.name).Nodup)
    (i : GlobalIndex) (hi : i ∈ l) :
    (l.map g).count (g i) = 1 := by
  induction l with
  | nil => cases hi
  | cons j rest ih =>
    rw [List.map_cons] at hnd ⊢
    rw [List.nodup_cons] at hnd
    rcases List.mem_cons.mp hi with rfl | hmem
    · rw [List.count_cons_self]
      have hzero : (rest.map g).count (g i) = 0 := by
        apply count_eq_zero_of_forall_ne
        intro y hy he
        rcases List.mem_map.mp hy with ⟨k, hk, rfl⟩
        have hkni : k.name = i.name := by
          have h1 := hg k
          rw [he, hg i] at h1
          exact (Option.some.inj h1).symm
        exact hnd.1 (hkni ▸ List.mem_map_of_mem GlobalIndex.name hk)
      rw [hzero]
    · have hne : g i ≠ g j := by
        intro he
        have hkni : i.name = j.name := by
          have h1 := hg i
          rw [he, hg j] at h1
          exact (Option.some.inj h1).symm
        exact hnd.1 (hkni ▸ List.mem_map_of_mem GlobalIndex.name hmem)
      rw [List.count_cons_of_ne hne]
      exact ih hnd.2 hmem

/-- Claim C3: with a healthy service, matching primary keys, and unique index
names on both sides (a spec invariant), `update_table` issues exactly one
create call (with the full local descriptor) per local-only index, exactly
one per-index throughput update (with the locally declared throughput) per
index present on both sides, exactly one delete per upstream-only index, and
nothing else besides the single primary-table throughput update. -/
theorem update_table_reconciliation_ops (svc : ServiceBehavior)
    (schema : List LocalKey) (localIndexes : List GlobalIndex)
    (throughput : Option Throughput) (desc : TableDescription)
    (hdesc : svc.describe = .ok desc)
    (hvalid : _validate_schema schema desc = .ok ())
    (hup : svc.update throughput = .ok ())
    (hcr : ∀ i, svc.create_global_secondary_index i = .ok ())
    (hug : ∀ n t, svc.update_global_secondary_index n t = .ok ())
    (hdel : ∀ n, svc.delete_global_secondary_index n = .ok ())
    (hln : (localIndexes.map GlobalIndex.name).Nodup)
    (hun : (desc.globalSecondaryIndexes.map UpstreamIndex.indexName).Nodup) :
    (∀ i ∈ localIndexes,
      (update_table svc schema localIndexes throughput).1.count (Op.createIndex i) =
        if i.name ∈ desc.globalSecondaryIndexes.map UpstreamIndex.indexName
        then 0 else 1) ∧
    (∀ i ∈ localIndexes,
      (update_table svc schema localIndexes throughput).1.count
          (Op.updateIndexThroughput i.name i.throughput) =
        if i.name ∈ desc.globalSecondaryIndexes.map UpstreamIndex.indexName
        then 1 else 0) ∧
    (∀ n ∈ desc.globalSecondaryIndexes.map UpstreamIndex.indexName,
      (update_table svc schema localIndexes throughput).1.count (Op.deleteIndex n) =
        if n ∈ localIndexes.map GlobalIndex.name then 0 else 1) ∧
    (∀ op ∈ (update_table svc schema localIndexes throughput).1,
      op = Op.updateThroughput throughput ∨
      (∃ i ∈ localIndexes,
        i.name ∉ desc.globalSecondaryIndexes.map UpstreamIndex.indexName ∧
        op = Op.createIndex i) ∨
      (∃ i ∈ localIndexes,
        i.name ∈ desc.globalSecondaryIndexes.map UpstreamIndex.indexName ∧
        op = Op.updateIndexThroughput i.name i.throughput) ∨
      (∃ n ∈ desc.globalSecondaryIndexes.map UpstreamIndex.indexName,
        n ∉ localIndexes.map GlobalIndex.name ∧
        op = Op.deleteIndex n)) := by
  have htr := update_table_trace_all_ok svc schema localIndexes throughput desc
    hdesc hvalid hup hcr hug hdel hln hun
  rw [htr]
  set uNames := desc.globalSecondaryIndexes.map UpstreamIndex.indexName with huN
  set lNames := localIndexes.map GlobalIndex.name with hlN
  set g : GlobalIndex → Op := fun i =>
    if uNames.contains i.name then Op.updateIndexThroughput i.name i.throughput
    else Op.createIndex i with hgdef
  have hg : ∀ j, opIndexName (g j) = some j.name := by
    intro j
    by_cases h : j.name ∈ uNames <;> simp [hgdef, h, opIndexName]
  have hBnoCreate : ∀ i, ((uNames.filter (fun n => !(lNames.contains n))).map Op.deleteIndex).count
      (Op.createIndex i) = 0 := by
    intro i
    apply count_eq_zero_of_forall_ne
    intro y hy
    rcases List.mem_map.mp hy with ⟨n, _, rfl⟩
    simp
  have hBnoUpd : ∀ n t, ((uNames.filter (fun m => !(lNames.contains m))).map Op.deleteIndex).count
      (Op.updateIndexThroughput n t) = 0 := by
    intro n t
    apply count_eq_zero_of_forall_ne
    intro y hy
    rcases List.mem_map.mp hy with ⟨m, _, rfl⟩
    simp
  have hAnoDel : ∀ n, (localIndexes.map g).count (Op.deleteIndex n) = 0 := by
    intro n
    apply count_eq_zero_of_forall_ne
    intro y hy
    rcases List.mem_map.mp hy with ⟨k, _, rfl⟩
    by_cases h : k.name ∈ uNames <;> simp [hgdef, h]
  refine ⟨?_, ?_, ?_, ?_⟩
  · intro i hi
    rw [List.count_cons_of_ne (by simp), List.count_append, hBnoCreate i]
    by_cases hc : i.name ∈ uNames
    · have hzero : (localIndexes.map g).count (Op.createIndex i) = 0 := by
        apply count_eq_zero_of_forall_ne
        intro y hy he
        rcases List.mem_map.mp hy with ⟨k, hk, rfl⟩
        by_cases h : k.name ∈ uNames
        · simp [hgdef, h] at he
        · simp [hgdef, h] at he
          subst he
          exact h hc
      rw [hzero]
      simp [hc]
    · have hgi : g i = Op.createIndex i := by
        simp [hgdef, hc]
      rw [← hgi, count_map_self_of_nodup localIndexes g hg hln i hi]
      simp [hc]
  · intro i hi
    rw [List.count_cons_of_ne (by simp), List.count_append, hBnoUpd i.name i.throughput]
    by_cases hc : i.name ∈ uNames
    · have hgi : g i = Op.updateIndexThroughput i.name i.throughput := by
        simp [hgdef, hc]
      rw [← hgi, count_map_self_of_nodup localIndexes g hg hln i hi]
      simp [hc]
    · have hzero : (localIndexes.map g).count
          (Op.updateIndexThroughput i.name i.throughput) = 0 := by
        apply count_eq_zero_of_forall_ne
        intro y hy he
        rcases List.mem_map.mp hy with ⟨k, hk, rfl⟩
        by_cases h : k.name ∈ uNames
        · simp [hgdef, h] at he
          exact hc (he.1 ▸ h)
        · simp [hgdef, h] at he
      rw [hzero]
      simp [hc]
  · intro n hn
    rw [List.count_cons_of_ne (by simp), List.count_append, hAnoDel n]
    have hinjdel : Function.Injective Op.deleteIndex := by
      intro a b h
      cases h
      rfl
    rw [List.count_map_of_injective _ Op.deleteIndex hinjdel n]
    by_cases hc : n ∈ lNames
    · have hnot : n ∉ uNames.filter (fun m => !(lNames.contains m)) := by
        intro hmem
        have := List.of_mem_filter hmem
        simp [hc] at this
      rw [List.count_eq_zero.mpr hnot]
      simp [hc]
    · have hmem : n ∈ uNames.filter (fun m => !(lNames.contains m)) := by
        apply List.mem_filter.mpr
        refine ⟨hn, ?_⟩
        simp [hc]
      rw [List.count_eq_one_of_mem (hun.filter _) hmem]
      simp [hc]
  · intro op hop
    rcases List.mem_cons.mp hop with rfl | hop2
    · exact Or.inl rfl
    rcases List.mem_append.mp hop2 with hA | hB
    · rcases List.mem_map.mp hA with ⟨k, hk, rfl⟩
      by_cases h : k.name ∈ uNames
      · refine Or.inr (Or.inr (Or.inl ⟨k, hk, h, ?_⟩))
        simp [hgdef, h]
      · refine Or.inr (Or.inl ⟨k, hk, h, ?_⟩)
        simp [hgdef, h]
    · rcases List.mem_map.mp hB with ⟨n, hnf, rfl⟩
      have hfm := List.mem_filter.mp hnf
      refine Or.inr (Or.inr (Or.inr ⟨n, hfm.1, ?_, rfl⟩))
      simpa using hfm.2

/-- Witness for C3 on the spec's own example: local indexes {A, B} against
upstream {B, C} create A exactly once. -/
theorem update_table_reconciliation_ops_witness :
    (update_table (svcAllOk descGsiFixture) schemaFixture [gsiA, gsiB] none).1.count
      (Op.createIndex gsiA) = 1 :=
  ((update_table_reconciliation_ops (svcAllOk descGsiFixture) schemaFixture
    [gsiA, gsiB] none descGsiFixture rfl rfl rfl (fun _ => rfl) (fun _ _ => rfl)
    (fun _ => rfl) (by decide) (by decide)).1 gsiA (by decide)).trans (by decide)

theorem readEntries_congr (f g : Nat → Option Tree) (l : List (String × Nat))
    (hfg : ∀ p ∈ l, f p.2 = g p.2) : readEntries f l = readEntries g l := by
  induction l with
  | nil => rfl
  | cons p rest ih =>
    cases p with
    | mk k r =>
      simp only [readEntries]
      rw [hfg ⟨k, r⟩ (List.mem_cons_self _ _),
        ih (fun q hq => hfg q (List.mem_cons_of_mem _ hq))]

theorem readTree_agree (fuel : Nat) (h hm : Heap) (hwf : WFHeap h)
    (hagree : ∀ a, a < h.length → hm[a]? = h[a]?) :
    ∀ r, r < h.length → readTree fuel hm r = readTree fuel h r := by
  induction fuel with
  | zero => intro r _; rfl
  | succ fuel ih =>
    intro r hr
    simp only [readTree]
    rw [hagree r hr]
    cases hobj : h[r]? with
    | none => rfl
    | some obj =>
      cases obj with
      | prim s => rfl
      | dictO entries =>
        have hmem : PyObj.dictO entries ∈ h := List.getElem?_mem hobj
        have hrefs : ∀ p ∈ entries, p.2 < h.length := by
          intro p hp
          exact hwf _ hmem p.2 (List.mem_map_of_mem (fun q => q.2) hp)
        show (readEntries (readTree fuel hm) entries).map Tree.dictT =
          (readEntries (readTree fuel h) entries).map Tree.dictT
        rw [readEntries_congr (readTree fuel hm) (readTree fuel h) entries
          (fun p hp => ih p.2 (hrefs p hp))]

mutual

theorem writeTree_length_le : ∀ (h : Heap) (t : Tree),
    h.length ≤ (writeTree h t).1.length
  | h, .prim s => by simp [writeTree]
  | h, .dictT entries => by
    have h1 := writeEntries_length_le h entries
    simp only [writeTree]
    exact le_trans h1 (by simp)

theorem writeEntries_length_le : ∀ (h : Heap) (es : List (String × Tree)),
    h.length ≤ (writeEntries h es).1.length
  | _, [] => le_refl _
  | h, (k, t) :: rest => by
    have h1 := writeTree_length_le h t
    have h2 := writeEntries_length_le (writeTree h t).1 rest
    simp only [writeEntries]
    exact le_trans h1 h2

end

mutual

theorem writeTree_get_lt : ∀ (h : Heap) (t : Tree) (a : Nat), a < h.length →
    (writeTree h t).1[a]? = h[a]?
  | h, .prim s, a, ha => by
    simp only [writeTree]
    exact List.getElem?_append_left ha
  | h, .dictT entries, a, ha => by
    simp only [writeTree]
    rw [List.getElem?_append_left (lt_of_lt_of_le ha (writeEntries_length_le h entries))]
    exact writeEntries_get_lt h entries a ha

theorem writeEntries_get_lt : ∀ (h : Heap) (es : List (String × Tree)) (a : Nat),
    a < h.length → (writeEntries h es).1[a]? = h[a]?
  | _, [], _, _ => rfl
  | h, (k, t) :: rest, a, ha => by
    simp only [writeEntries]
    rw [writeEntries_get_lt (writeTree h t).1 rest a
      (lt_of_lt_of_le ha (writeTree_length_le h t))]
    exact writeTree_get_lt h t a ha

end

/-- Claim C8: `get_config` hands the caller a deep copy. If the cached
configuration lives at `root` in a well-formed heap and `get_config` produces
the copy heap `hcopy` with copy root `newRoot`, then for every later heap
`hmut` obtained by caller mutations confined to the copy (every address
below the original heap length is untouched), the cached configuration's
value read at `root` is exactly what it was before. -/
theorem get_config_deep_copy_isolated (h : Heap) (root fuel : Nat)
    (hcopy : Heap) (newRoot : Nat) (hmut : Heap)
    (hwf : WFHeap h) (hroot : root < h.length)
    (hget : get_config_model h root fuel = some (hcopy, newRoot))
    (hmuta : ∀ a, a < h.length → hmut[a]? = hcopy[a]?) :
    readTree fuel hmut root = readTree fuel h root := by
  unfold get_config_model at hget
  cases hrt : readTree fuel h root with
  | none =>
    rw [hrt] at hget
    cases hget
  | some t =>
    rw [hrt, Option.map_some'] at hget
    have hw : writeTree h t = (hcopy, newRoot) := Option.some.inj hget
    have hagree : ∀ a, a < h.length → hmut[a]? = h[a]? := by
      intro a ha
      rw [hmuta a ha]
      have hpres := writeTree_get_lt h t a ha
      rw [hw] at hpres
      exact hpres
    exact (readTree_agree fuel h hmut hwf hagree root hroot).trans hrt

/-- Witness for C8: a two-object heap (a dict at address 1 pointing to a
scalar at address 0); after copying, mutating the copied scalar (address 2)
leaves the cached value at address 1 unchanged. -/
theorem get_config_deep_copy_isolated_witness :
    readTree 3
      [PyObj.prim "v", PyObj.dictO [("k", 0)], PyObj.prim "w", PyObj.dictO [("k", 2)]] 1 =
    readTree 3 [PyObj.prim "v", PyObj.dictO [("k", 0)]] 1 :=
  get_config_deep_copy_isolated
    [PyObj.prim "v", PyObj.dictO [("k", 0)]] 1 3
    [PyObj.prim "v", PyObj.dictO [("k", 0)], PyObj.prim "v", PyObj.dictO [("k", 2)]] 3
    [PyObj.prim "v", PyObj.dictO [("k", 0)], PyObj.prim "w", PyObj.dictO [("k", 2)]]
    (by unfold WFHeap; decide) (by decide)
    (by simp [get_config_model, readTree, readEntries, writeTree, writeEntries])
    (by decide)

end CcDynamodb




